import Mathlib

/-!
Shallow embedding of the `TerminalPortfolio` in-browser terminal component of the
Site-Portifolio repository (`src/frontend/src/components/Contact.tsx`, second document
in the bundle: the component starting at the `TerminalPortfolio` declaration), together
with the theme side channel (`src/frontend/src/contexts/ThemeContext.tsx`).

The component is a React function component.  Its state hooks become explicit record
fields; the JavaScript string pipeline `input.toLowerCase().trim().split(" ")` becomes
explicit total functions on `String`/`List Char`; side effects (calls to `setTheme`,
`setTimeout`) become explicit effect values returned alongside the new state.  The
`timestamp: Date` field of a log entry is a wall-clock capture that no verified
property mentions; it is elided from the embedded entry record.
-/

namespace Terminal

/-! ## JavaScript string primitives -/

/-- JavaScript `String.prototype.toLowerCase`, restricted to the Basic Latin letters
that occur in terminal input.  `Char.toLower` maps `A`-`Z` to `a`-`z` and leaves every
other character unchanged, which is exactly the ASCII fragment of the JS behaviour. -/
def jsLower (s : String) : String :=
  String.mk (s.data.map Char.toLower)

/-- JavaScript `String.prototype.trim`: remove leading and trailing whitespace. -/
def jsTrim (s : String) : String :=
  String.mk (((s.data.dropWhile Char.isWhitespace).reverse.dropWhile Char.isWhitespace).reverse)

/-- Worker for `jsSplitSpace`: consume the character list, cutting at every single
space, accumulating the current fragment in reverse. -/
def splitSpaceAux : List Char → List Char → List String
  | [], acc => [String.mk acc.reverse]
  | c :: cs, acc =>
      if c = ' ' then String.mk acc.reverse :: splitSpaceAux cs []
      else splitSpaceAux cs (c :: acc)

/-- JavaScript `String.prototype.split(" ")`: cut at every single space character, so
consecutive spaces yield empty fragments and `"".split(" ")` is `[""]`. -/
def jsSplitSpace (s : String) : List String :=
  splitSpaceAux s.data []

/-- The tokenizer of `executeCommand`: `input.toLowerCase().trim().split(" ")`. -/
def tokens (input : String) : List String :=
  jsSplitSpace (jsTrim (jsLower input))

/-- JavaScript truthiness of the optional string `args[0]` (`if (args[0])`):
present and non-empty. -/
def truthy : Option String → Bool
  | some s => !(s == "")
  | none => false

/-- JavaScript `args[0] || d`: the argument if present and truthy, else the default. -/
def jsOrElse (o : Option String) (d : String) : String :=
  match o with
  | some s => if s = "" then d else s
  | none => d

/-! ## Data model -/

/-- The optional `links` object of a project record (`src/frontend/src/lib/api.ts`). -/
structure Links where
  github : Option String
  live : Option String
  demo : Option String
deriving DecidableEq, Repr

/-- The `Project` record of `src/frontend/src/lib/api.ts`. -/
structure Project where
  id : String
  title : String
  description : String
  short_description : Option String
  technologies : List String
  images : List String
  thumbnail : Option String
  links : Option Links
  category : String
  featured : Bool
  date_created : String
  date_updated : String
deriving DecidableEq, Repr

/-- The renderable output of one dispatched command.  Each constructor corresponds to
one `output = ...` assignment in the `switch` of `executeCommand`; constructors carry
exactly the data the rendered JSX depends on. -/
inductive Output where
  | welcome
  | helpText
  | aboutText
  | skillsText
  | projectsLoading
  | projectsList (ps : List Project)
  | contactText
  | experienceText
  | educationText
  | whoamiText
  | lsText
  | catReadme
  | catNoFile (arg : String)
  | neofetchText
  | treeText
  | pwdText
  | dateText
  | themeSwitched (name : String)
  | themeUnknown (name : String)
  | themeCurrent
  | exitMessage
  | notFound (cmd : String)
deriving DecidableEq, Repr

/-- The principal literal text of an output, read off the corresponding JSX in the
source: the heading line for `catReadme`, the full error lines for `catNoFile`,
`notFound`, the theme messages and the loading placeholder.  Outputs whose whole body
is static flavour text render as `""` here; no verified property mentions their text. -/
def renderText : Output → String
  | .projectsLoading => "Loading projects from database..."
  | .catReadme => "# Site-Portifolio"
  | .catNoFile a => "cat: " ++ a ++ ": No such file or directory"
  | .notFound c => "Command '" ++ c ++ "' not found. Type 'help' for available commands."
  | .themeSwitched n => "✓ Theme switched to: " ++ n
  | .themeUnknown n => "Unknown theme: " ++ n
  | .themeCurrent => "Current theme: cmd"
  | .exitMessage => "Exiting terminal mode..."
  | _ => ""

/-- The project titles listed by a `projectsList` output (one `project.title` heading
per project in the rendered JSX). -/
def titlesOf : Output → List String
  | .projectsList ps => ps.map Project.title
  | _ => []

/-- One Session Log entry (`interface Command` in the source): the raw submitted input
and the rendered output.  The source also stores `timestamp: Date`, a wall-clock
capture elided here. -/
structure Entry where
  input : String
  output : Output
deriving DecidableEq, Repr

/-- The externally visible side effects of one `executeCommand` call:
`themeCalls` records the immediate `setTheme` invocations, `scheduled` records the
`setTimeout` registrations as (delay in ms, theme name) pairs. -/
structure Effects where
  themeCalls : List String
  scheduled : List (Nat × String)
deriving DecidableEq, Repr

/-- No side effects. -/
def noFx : Effects := ⟨[], []⟩

/-- The state hooks of `TerminalPortfolio`: `commands` (Session Log), `commandHistory`
(Input History), `historyIndex` (recall cursor), `currentInput` (editable buffer) and
`projects` (cached project list). -/
structure TermState where
  commands : List Entry
  commandHistory : List String
  historyIndex : Int
  currentInput : String
  projects : List Project
deriving DecidableEq, Repr

/-- The fixed theme set checked by the `theme` handler
(`const themes = ['default', 'angler', 'magic', 'cmd']`). -/
def themes : List String := ["default", "angler", "magic", "cmd"]

/-- The 17 keys of the `availableCommands` registry, in source order. -/
def commandNames : List String :=
  ["help", "about", "skills", "projects", "contact", "experience", "education",
   "clear", "whoami", "ls", "cat", "neofetch", "tree", "pwd", "date", "theme", "exit"]

/-! ## The interpreter -/

/-- Result of the `switch (cmd)` dispatch: `clearScreen` and `emptyInput` are the two
early-`return` cases (`clear` after `setCommands([])`, and the empty command), every
other case produces an output and possibly side effects. -/
inductive DispatchResult where
  | clearScreen
  | emptyInput
  | normal (out : Output) (fx : Effects)
deriving DecidableEq, Repr

/-- The `switch (cmd)` body of `executeCommand`.  A JavaScript `switch` on string
literals is an equality chain, rendered here as nested conditionals in source case
order.  The `theme` case mirrors `if (args[0])` / `themes.includes(args[0])`; the
`cat` case mirrors `args[0] === "readme.md"` and `args[0] || "filename"`; the
`projects` case mirrors `projects.length > 0`; the `exit` case performs
`setTimeout(() => setTheme('default'), 1000)`. -/
def dispatch (cmd : String) (args : List String) (projects : List Project) :
    DispatchResult :=
  if cmd = "help" then .normal .helpText noFx
  else if cmd = "about" then .normal .aboutText noFx
  else if cmd = "skills" then .normal .skillsText noFx
  else if cmd = "projects" then
    .normal (if projects.length > 0 then .projectsList projects else .projectsLoading) noFx
  else if cmd = "contact" then .normal .contactText noFx
  else if cmd = "experience" then .normal .experienceText noFx
  else if cmd = "education" then .normal .educationText noFx
  else if cmd = "whoami" then .normal .whoamiText noFx
  else if cmd = "ls" then .normal .lsText noFx
  else if cmd = "cat" then
    (if args.head? = some "readme.md" then .normal .catReadme noFx
     else .normal (.catNoFile (jsOrElse args.head? "filename")) noFx)
  else if cmd = "neofetch" then .normal .neofetchText noFx
  else if cmd = "tree" then .normal .treeText noFx
  else if cmd = "pwd" then .normal .pwdText noFx
  else if cmd = "date" then .normal .dateText noFx
  else if cmd = "theme" then
    (match args.head? with
     | some a =>
         if a = "" then .normal .themeCurrent noFx
         else if a ∈ themes then .normal (.themeSwitched a) ⟨[a], []⟩
         else .normal (.themeUnknown a) noFx
     | none => .normal .themeCurrent noFx)
  else if cmd = "exit" then .normal .exitMessage ⟨[], [(1000, "default")]⟩
  else if cmd = "clear" then .clearScreen
  else if cmd = "" then .emptyInput
  else .normal (.notFound cmd) noFx

/-- `executeCommand(input)`: tokenize (`const [cmd, ...args] = input.toLowerCase()
.trim().split(" ")`), dispatch, and — unless the dispatch returned early — append a
new entry `{input, output, timestamp}` to the Session Log, append the raw `input` to
the Input History, and reset the recall cursor to `-1`.  The `clear` case empties the
Session Log and returns before the appends; the empty command returns untouched. -/
def executeCommand (input : String) (st : TermState) : TermState × Effects :=
  let parts := tokens input
  let cmd := parts.headD ""
  let args := parts.tail
  match dispatch cmd args st.projects with
  | .clearScreen => ({ st with commands := [] }, noFx)
  | .emptyInput => (st, noFx)
  | .normal out fx =>
      ({ st with
          commands := st.commands ++ [{ input := input, output := out }],
          commandHistory := st.commandHistory ++ [input],
          historyIndex := -1 }, fx)

/-- `handleSubmit`: run `executeCommand(currentInput)` and blank the input field, but
only when `currentInput.trim()` is truthy (non-empty); otherwise nothing happens. -/
def handleSubmit (st : TermState) : TermState × Effects :=
  if jsTrim st.currentInput ≠ "" then
    let r := executeCommand st.currentInput st
    ({ r.1 with currentInput := "" }, r.2)
  else (st, noFx)

/-- Typing a line into the input field and submitting the form. -/
def submitLine (line : String) (st : TermState) : TermState × Effects :=
  handleSubmit { st with currentInput := line }

/-- The JavaScript array read `commandHistory[commandHistory.length - 1 - newIndex]`.
An out-of-range read yields `undefined` in JS; within the reachable cursor invariant
the index is always in range, and the out-of-range default here is `""`. -/
def histAt (h : List String) (i : Int) : String :=
  if 0 ≤ i then h.getD i.toNat "" else ""

/-- The `ArrowUp` branch of `handleKeyDown`: if the cursor has not reached the oldest
entry (`historyIndex < commandHistory.length - 1`), advance it and stage the recalled
line into the input buffer. -/
def recallPrevious (st : TermState) : TermState :=
  if st.historyIndex < (st.commandHistory.length : Int) - 1 then
    let newIndex := st.historyIndex + 1
    { st with
        historyIndex := newIndex,
        currentInput := histAt st.commandHistory ((st.commandHistory.length : Int) - 1 - newIndex) }
  else st

/-- The `ArrowDown` branch of `handleKeyDown`: above cursor 0, retreat and stage; at
cursor 0, return to `-1` with a blank buffer; at `-1`, do nothing. -/
def recallNext (st : TermState) : TermState :=
  if st.historyIndex > 0 then
    let newIndex := st.historyIndex - 1
    { st with
        historyIndex := newIndex,
        currentInput := histAt st.commandHistory ((st.commandHistory.length : Int) - 1 - newIndex) }
  else if st.historyIndex = 0 then
    { st with historyIndex := -1, currentInput := "" }
  else st

/-! ## Mount state and the project fetch -/

/-- The synthetic welcome entry installed by the mount effect (`input: ""` with the
welcome banner output). -/
def welcomeEntry : Entry := { input := "", output := .welcome }

/-- The component state right after mount: Session Log holding only the welcome entry,
empty Input History, cursor `-1`, blank input, and no fetched projects yet. -/
def initState : TermState :=
  { commands := [welcomeEntry], commandHistory := [], historyIndex := -1,
    currentInput := "", projects := [] }

/-- Successful resolution of the mount-time fetch: `setProjects(response.data)`. -/
def fetchResolve (ps : List Project) (st : TermState) : TermState :=
  { st with projects := ps }

/-- The two mock projects installed by the fetch `catch` handler.  Their
`date_created`/`date_updated` fields call `new Date().toISOString()`, a wall-clock
value passed in here as `nowIso`. -/
def mockProjects (nowIso : String) : List Project :=
  [{ id := "1",
     title := "Portfolio Terminal",
     description := "Interactive terminal-style portfolio interface",
     short_description := some "CMD-style portfolio interface",
     technologies := ["React", "TypeScript", "Framer Motion", "Tailwind CSS"],
     images := [],
     thumbnail := none,
     links := some { github := some "https://github.com/user/portfolio",
                     live := none,
                     demo := some "https://portfolio.dev" },
     category := "Web Development",
     featured := true,
     date_created := nowIso,
     date_updated := nowIso },
   { id := "2",
     title := "Full Stack Dashboard",
     description := "Modern dashboard with real-time data visualization",
     short_description := some "Real-time dashboard",
     technologies := ["React", "FastAPI", "PostgreSQL", "Chart.js"],
     images := [],
     thumbnail := none,
     links := some { github := some "https://github.com/user/dashboard",
                     live := none,
                     demo := none },
     category := "Full Stack",
     featured := true,
     date_created := nowIso,
     date_updated := nowIso }]

/-- Failure of the mount-time fetch: the `catch` handler logs the error and runs
`setProjects(...)` with the two mock projects, so a failed fetch leaves the cache
non-empty. -/
def fetchReject (nowIso : String) (st : TermState) : TermState :=
  { st with projects := mockProjects nowIso }

/-! ## Interaction sequences -/

/-- One user interaction: an ArrowUp recall, an ArrowDown recall, or typing and
submitting a line. -/
inductive Op where
  | up
  | down
  | submit (line : String)
deriving DecidableEq, Repr

/-- Apply one interaction to the component state (submission effects discarded). -/
def applyOp (st : TermState) : Op → TermState
  | .up => recallPrevious st
  | .down => recallNext st
  | .submit line => (submitLine line st).1

/-- Apply a sequence of interactions in order. -/
def applyOps (st : TermState) (ops : List Op) : TermState :=
  ops.foldl applyOp st

/-- The recall-cursor invariant: `historyIndex ∈ [-1, length commandHistory - 1]`. -/
def cursorInv (st : TermState) : Prop :=
  -1 ≤ st.historyIndex ∧ st.historyIndex ≤ (st.commandHistory.length : Int) - 1

instance (st : TermState) : Decidable (cursorInv st) := by
  unfold cursorInv; infer_instance

/-- Iterate a state transformer: `iterate f (n+1) st = f (iterate f n st)`. -/
def iterate (f : TermState → TermState) : Nat → TermState → TermState
  | 0, st => st
  | n + 1, st => f (iterate f n st)

/-- The lines staged into the input buffer by `n` consecutive ArrowUp recalls:
entry `i` is the buffer content after `i+1` recalls. -/
def stagedInputs (st : TermState) (n : Nat) : List String :=
  (List.range n).map (fun i => (iterate recallPrevious (i + 1) st).currentInput)

/-- Submit a list of lines in order (effects discarded). -/
def submitAll (lines : List String) (st : TermState) : TermState :=
  lines.foldl (fun s l => (submitLine l s).1) st

/-! ## Component lifetime and deferred effects -/

/-- The component together with its pending `setTimeout` callbacks and its mount
status. -/
structure World where
  st : TermState
  pendingTimers : List (Nat × String)
  mounted : Bool
deriving DecidableEq, Repr

/-- A freshly mounted terminal with no pending timers. -/
def initWorld : World := ⟨initState, [], true⟩

/-- Execute a command in the mounted world; any `setTimeout` registration joins the
pending timers. -/
def execW (input : String) (w : World) : World :=
  let r := executeCommand input w.st
  { w with st := r.1, pendingTimers := w.pendingTimers ++ r.2.scheduled }

/-- Unmounting the component.  In the source, neither `useEffect` hook of
`TerminalPortfolio` returns a cleanup function and the handle returned by the `exit`
handler's `setTimeout` is discarded (the call is a bare expression statement), so no
`clearTimeout` ever runs: teardown cancels no pending timer. -/
def teardown (w : World) : World :=
  { w with mounted := false }


/-! ## Helper lemmas about the dispatcher and the tokenizer -/

theorem dispatch_default (cmd : String) (args : List String) (ps : List Project)
    (h : cmd ∉ commandNames) (h0 : cmd ≠ "") :
    dispatch cmd args ps = .normal (.notFound cmd) noFx := by
  simp only [commandNames, List.mem_cons, List.not_mem_nil, or_false, not_or] at h
  obtain ⟨h1, h2, h3, h4, h5, h6, h7, h8, h9, h10, h11, h12, h13, h14, h15, h16, h17⟩ := h
  simp [dispatch, h1, h2, h3, h4, h5, h6, h7, h8, h9, h10, h11, h12, h13, h14, h15, h16, h17, h0]

theorem dispatch_shape (cmd : String) (args : List String) (ps : List Project)
    (hc : cmd ≠ "clear") (h0 : cmd ≠ "") :
    ∃ out fx, dispatch cmd args ps = .normal out fx
      ∧ (cmd ≠ "exit" → fx.scheduled = []) := by
  by_cases hmem : cmd ∈ commandNames
  · simp only [commandNames, List.mem_cons, List.not_mem_nil, or_false] at hmem
    rcases hmem with rfl | rfl | rfl | rfl | rfl | rfl | rfl | rfl | rfl | rfl | rfl | rfl |
      rfl | rfl | rfl | rfl | rfl
    · exact ⟨_, _, rfl, fun _ => rfl⟩
    · exact ⟨_, _, rfl, fun _ => rfl⟩
    · exact ⟨_, _, rfl, fun _ => rfl⟩
    · exact ⟨_, _, rfl, fun _ => rfl⟩
    · exact ⟨_, _, rfl, fun _ => rfl⟩
    · exact ⟨_, _, rfl, fun _ => rfl⟩
    · exact ⟨_, _, rfl, fun _ => rfl⟩
    · exact absurd rfl hc
    · exact ⟨_, _, rfl, fun _ => rfl⟩
    · exact ⟨_, _, rfl, fun _ => rfl⟩
    · by_cases h : args.head? = some "readme.md"
      · exact ⟨.catReadme, noFx, by simp [dispatch, h], fun _ => rfl⟩
      · exact ⟨.catNoFile (jsOrElse args.head? "filename"), noFx, by simp [dispatch, h],
          fun _ => rfl⟩
    · exact ⟨_, _, rfl, fun _ => rfl⟩
    · exact ⟨_, _, rfl, fun _ => rfl⟩
    · exact ⟨_, _, rfl, fun _ => rfl⟩
    · exact ⟨_, _, rfl, fun _ => rfl⟩
    · rcases ha : args.head? with _ | a
      · exact ⟨.themeCurrent, noFx, by simp [dispatch, ha], fun _ => rfl⟩
      · by_cases he : a = ""
        · exact ⟨.themeCurrent, noFx, by simp [dispatch, ha, he], fun _ => rfl⟩
        · by_cases ht : a ∈ themes
          · exact ⟨.themeSwitched a, ⟨[a], []⟩, by simp [dispatch, ha, he, ht], fun _ => rfl⟩
          · exact ⟨.themeUnknown a, noFx, by simp [dispatch, ha, he, ht], fun _ => rfl⟩
    · exact ⟨_, _, rfl, fun hne => absurd rfl hne⟩
  · exact ⟨_, _, dispatch_default cmd args ps hmem h0, fun _ => rfl⟩

theorem toNat_ofNat_valid {n : Nat} (h : n.isValidChar) : (Char.ofNat n).toNat = n := by
  rw [Char.ofNat, dif_pos h]; rfl

theorem toLower_eq (c : Char) :
    c.toLower = if c.toNat ≥ 65 ∧ c.toNat ≤ 90 then Char.ofNat (c.toNat + 32) else c := rfl

theorem toLower_idem (c : Char) : c.toLower.toLower = c.toLower := by
  rw [toLower_eq c]
  by_cases h : c.toNat ≥ 65 ∧ c.toNat ≤ 90
  · rw [if_pos h, toLower_eq]
    have hv : Nat.isValidChar (c.toNat + 32) := Or.inl (by omega)
    rw [toNat_ofNat_valid hv, if_neg (by omega)]
  · rw [if_neg h, toLower_eq, if_neg h]

theorem toLower_whitespace (c : Char) (h : c.isWhitespace) : c.toLower = c := by
  simp only [Char.isWhitespace, Bool.or_eq_true, decide_eq_true_eq] at h
  rcases h with ((rfl | rfl) | rfl) | rfl <;> decide

theorem jsLower_data (s : String) : (jsLower s).data = s.data.map Char.toLower := rfl

theorem jsLower_idem (s : String) : jsLower (jsLower s) = jsLower s := by
  show String.mk ((s.data.map Char.toLower).map Char.toLower) = String.mk (s.data.map Char.toLower)
  rw [List.map_map]
  exact congrArg String.mk (List.map_congr_left fun c _ => toLower_idem c)

theorem jsTrim_eq_empty (s : String) (h : ∀ c ∈ s.data, c.isWhitespace) : jsTrim s = "" := by
  unfold jsTrim
  rw [List.dropWhile_eq_nil_iff.2 (fun c hc => h c hc)]
  rfl

theorem tokens_blank (s : String) (h : ∀ c ∈ s.data, c.isWhitespace) : tokens s = [""] := by
  unfold tokens
  have hl : ∀ c ∈ (jsLower s).data, c.isWhitespace := by
    intro c hc
    rw [jsLower_data] at hc
    obtain ⟨a, ha, rfl⟩ := List.mem_map.1 hc
    rw [toLower_whitespace a (h a ha)]
    exact h a ha
  rw [jsTrim_eq_empty _ hl]
  rfl

theorem tokens_jsLower (s : String) : tokens (jsLower s) = tokens s := by
  unfold tokens
  rw [jsLower_idem]

theorem executeCommand_eq (input : String) (st : TermState) :
    executeCommand input st =
      match dispatch ((tokens input).headD "") (tokens input).tail st.projects with
      | .clearScreen => ({ st with commands := [] }, noFx)
      | .emptyInput => (st, noFx)
      | .normal out fx =>
          ({ st with
              commands := st.commands ++ [{ input := input, output := out }],
              commandHistory := st.commandHistory ++ [input],
              historyIndex := -1 }, fx) := rfl


theorem execute_appends (input : String) (st : TermState)
    (hc : (tokens input).headD "" ≠ "clear") (h0 : (tokens input).headD "" ≠ "") :
    ∃ out fx,
      executeCommand input st =
        ({ st with
            commands := st.commands ++ [{ input := input, output := out }],
            commandHistory := st.commandHistory ++ [input],
            historyIndex := -1 }, fx)
      ∧ ((tokens input).headD "" ≠ "exit" → fx.scheduled = []) := by
  obtain ⟨out, fx, hd, hs⟩ :=
    dispatch_shape ((tokens input).headD "") (tokens input).tail st.projects hc h0
  exact ⟨out, fx, by rw [executeCommand_eq, hd], hs⟩

theorem execute_tokens_congr (i1 i2 : String) (st : TermState) (h : tokens i1 = tokens i2) :
    (executeCommand i1 st).2 = (executeCommand i2 st).2
    ∧ (executeCommand i1 st).1.commands.map Entry.output
        = (executeCommand i2 st).1.commands.map Entry.output := by
  rw [executeCommand_eq i1, executeCommand_eq i2, h]
  rcases hd : dispatch ((tokens i2).headD "") (tokens i2).tail st.projects with _ | _ | ⟨o, fx⟩ <;>
    simp

/-- C9: for every blank or whitespace-only input line, `execute` appends no Session Log
entry and no Input History entry and leaves the state unchanged; the same holds for the
submission path, which additionally guards on `currentInput.trim()`. -/
theorem execute_blank_noop (input : String) (st : TermState)
    (h : ∀ c ∈ input.data, c.isWhitespace) :
    executeCommand input st = (st, noFx)
    ∧ (submitLine input st).1.commands = st.commands
    ∧ (submitLine input st).1.commandHistory = st.commandHistory := by
  refine ⟨?_, ?_, ?_⟩
  · rw [executeCommand_eq, tokens_blank input h]
    rfl
  · simp [submitLine, handleSubmit, jsTrim_eq_empty input h]
  · simp [submitLine, handleSubmit, jsTrim_eq_empty input h]

/-- Witness for C9 at the concrete whitespace-only line consisting of a space and a tab. -/
theorem execute_blank_noop_witness :
    executeCommand " \t" initState = (initState, noFx)
    ∧ (submitLine " \t" initState).1.commands = initState.commands
    ∧ (submitLine " \t" initState).1.commandHistory = initState.commandHistory :=
  execute_blank_noop " \t" initState (by decide)

/-- C2: for every input line whose (normalized) leading token is outside the closed
command set and non-empty, `execute` appends exactly one Session Log entry whose output
is the "command not found" error echoing that token, appends the raw line to the Input
History, performs no side effect, and the rendered error text names the token.
`executeCommand` is a total function, so no exception can escape. -/
theorem execute_unknown (input : String) (st : TermState)
    (hcmd : (tokens input).headD "" ∉ commandNames)
    (hne : (tokens input).headD "" ≠ "") :
    (executeCommand input st).1.commands
      = st.commands ++ [{ input := input, output := .notFound ((tokens input).headD "") }]
    ∧ (executeCommand input st).1.commandHistory = st.commandHistory ++ [input]
    ∧ (executeCommand input st).2 = noFx
    ∧ renderText (Output.notFound ((tokens input).headD ""))
        = "Command '" ++ (tokens input).headD "" ++ "' not found. Type 'help' for available commands." := by
  have hd := dispatch_default ((tokens input).headD "") (tokens input).tail st.projects hcmd hne
  rw [executeCommand_eq, hd]
  exact ⟨rfl, rfl, rfl, rfl⟩

/-- Witness for C2 at the unrecognized command line `foobar baz`. -/
theorem execute_unknown_witness :
    (executeCommand "foobar baz" initState).1.commands
      = initState.commands ++ [{ input := "foobar baz", output := .notFound "foobar" }]
    ∧ (executeCommand "foobar baz" initState).1.commandHistory = [] ++ ["foobar baz"]
    ∧ (executeCommand "foobar baz" initState).2 = noFx := by
  have h := execute_unknown "foobar baz" initState (by decide) (by decide)
  exact ⟨by rw [h.1]; decide, by rw [h.2.1]; rfl, h.2.2.1⟩

/-- C1 counterexample: submitting `clear` empties the Session Log, but the Input
History does not contain `"clear"` afterwards — the `clear` case returns before the
history append, so the claimed membership fails. -/
theorem clear_history_counterexample :
    (executeCommand "clear" initState).1.commands = []
    ∧ "clear" ∉ (executeCommand "clear" initState).1.commandHistory := by
  decide

/-- C1 amended: executing `clear` always results in an empty Session Log immediately,
regardless of prior length, and returns early, so the Input History (and every other
state component) is left unchanged — in particular it does not gain `"clear"`. -/
theorem clear_amended (st : TermState) :
    executeCommand "clear" st = ({ st with commands := [] }, noFx) := rfl


/-- C3: `theme` with an unknown (non-empty) argument never invokes the theme side
channel and emits the unknown-theme error entry; with one of the four valid names it
invokes the side channel exactly once with that value and emits the confirmation
entry; with no argument it performs no side effect and emits the current theme. -/
theorem theme_behavior (input : String) (st : TermState) (xyz : String) (rest : List String) :
    (tokens input = "theme" :: xyz :: rest → xyz ∉ themes → xyz ≠ "" →
       (executeCommand input st).2 = noFx
       ∧ (executeCommand input st).1.commands
           = st.commands ++ [{ input := input, output := .themeUnknown xyz }])
    ∧ (tokens input = "theme" :: xyz :: rest → xyz ∈ themes →
       (executeCommand input st).2.themeCalls = [xyz]
       ∧ (executeCommand input st).2.scheduled = []
       ∧ (executeCommand input st).1.commands
           = st.commands ++ [{ input := input, output := .themeSwitched xyz }])
    ∧ (tokens input = ["theme"] →
       (executeCommand input st).2 = noFx
       ∧ (executeCommand input st).1.commands
           = st.commands ++ [{ input := input, output := .themeCurrent }]) := by
  refine ⟨?_, ?_, ?_⟩
  · intro h hnm hne
    have hd : dispatch "theme" (xyz :: rest) st.projects = .normal (.themeUnknown xyz) noFx := by
      simp [dispatch, hne, hnm]
    rw [executeCommand_eq, h]
    simp only [List.headD_cons, List.tail_cons, hd]
    simp [renderText, titlesOf]
  · intro h ht
    have hne : xyz ≠ "" := by
      rintro rfl
      simp [themes] at ht
    have hd : dispatch "theme" (xyz :: rest) st.projects
        = .normal (.themeSwitched xyz) ⟨[xyz], []⟩ := by
      simp [dispatch, hne, ht]
    rw [executeCommand_eq, h]
    simp only [List.headD_cons, List.tail_cons, hd]
    simp [renderText, titlesOf]
  · intro h
    have hd : dispatch "theme" [] st.projects = .normal .themeCurrent noFx := rfl
    rw [executeCommand_eq, h]
    simp only [List.headD_cons, List.tail_cons, hd]
    simp [renderText, titlesOf]

/-- Witness for C3 at the concrete lines `theme blue` (unknown), `theme magic`
(valid), and `theme` (no argument). -/
theorem theme_behavior_witness :
    (executeCommand "theme blue" initState).2 = noFx
    ∧ (executeCommand "theme magic" initState).2.themeCalls = ["magic"]
    ∧ (executeCommand "theme magic" initState).2.scheduled = []
    ∧ (executeCommand "theme" initState).2 = noFx :=
  ⟨((theme_behavior "theme blue" initState "blue" []).1 (by decide) (by decide) (by decide)).1,
   ((theme_behavior "theme magic" initState "magic" []).2.1 (by decide) (by decide)).1,
   ((theme_behavior "theme magic" initState "magic" []).2.1 (by decide) (by decide)).2.1,
   ((theme_behavior "theme" initState "" []).2.2 (by decide)).1⟩

/-- C6 amended: `cat` recognizes exactly the literal filename `readme.md` of the
lowercased token list (hence case-insensitively in the typed line) and renders the
readme heading; any other non-empty argument yields the no-such-file error echoing the
*lowercased* argument; a missing argument yields the error with the literal
placeholder `filename`. -/
theorem cat_behavior (input : String) (st : TermState) (a : String) (rest : List String) :
    (tokens input = "cat" :: a :: rest → a = "readme.md" →
       (executeCommand input st).1.commands
           = st.commands ++ [{ input := input, output := .catReadme }]
       ∧ renderText Output.catReadme = "# Site-Portifolio")
    ∧ (tokens input = "cat" :: a :: rest → a ≠ "readme.md" → a ≠ "" →
       (executeCommand input st).1.commands
           = st.commands ++ [{ input := input, output := .catNoFile a }]
       ∧ renderText (Output.catNoFile a) = "cat: " ++ a ++ ": No such file or directory")
    ∧ (tokens input = ["cat"] →
       (executeCommand input st).1.commands
           = st.commands ++ [{ input := input, output := .catNoFile "filename" }]) := by
  refine ⟨?_, ?_, ?_⟩
  · intro h ha
    subst ha
    have hd : dispatch "cat" ("readme.md" :: rest) st.projects = .normal .catReadme noFx := by
      simp [dispatch]
    rw [executeCommand_eq, h]
    simp only [List.headD_cons, List.tail_cons, hd]
    simp [renderText, titlesOf]
  · intro h ha hne
    have hd : dispatch "cat" (a :: rest) st.projects = .normal (.catNoFile a) noFx := by
      simp [dispatch, jsOrElse, ha, hne]
    rw [executeCommand_eq, h]
    simp only [List.headD_cons, List.tail_cons, hd]
    simp [renderText, titlesOf]
  · intro h
    have hd : dispatch "cat" [] st.projects = .normal (.catNoFile "filename") noFx := rfl
    rw [executeCommand_eq, h]
    simp only [List.headD_cons, List.tail_cons, hd]

/-- Witness for C6 at the concrete lines `cat README.md` (case-insensitive match),
`cat nonexistent.txt` (unknown file), and `cat` (no argument). -/
theorem cat_behavior_witness :
    (executeCommand "cat README.md" initState).1.commands
        = initState.commands ++ [{ input := "cat README.md", output := .catReadme }]
    ∧ (executeCommand "cat nonexistent.txt" initState).1.commands
        = initState.commands ++ [{ input := "cat nonexistent.txt", output := .catNoFile "nonexistent.txt" }]
    ∧ renderText (Output.catNoFile "nonexistent.txt")
        = "cat: " ++ "nonexistent.txt" ++ ": No such file or directory"
    ∧ (executeCommand "cat" initState).1.commands
        = initState.commands ++ [{ input := "cat", output := .catNoFile "filename" }] :=
  ⟨((cat_behavior "cat README.md" initState "readme.md" []).1 (by decide) rfl).1,
   ((cat_behavior "cat nonexistent.txt" initState "nonexistent.txt" []).2.1
      (by decide) (by decide) (by decide)).1,
   ((cat_behavior "cat nonexistent.txt" initState "nonexistent.txt" []).2.1
      (by decide) (by decide) (by decide)).2,
   (cat_behavior "cat" initState "" []).2.2 (by decide)⟩

/-- C6 counterexample: for `cat Foo.TXT`, the logged output echoes the lowercased
argument `foo.txt`; its rendered text is not the error message containing the
argument as the user typed it. -/
theorem cat_counterexample :
    (executeCommand "cat Foo.TXT" initState).1.commands
      = initState.commands ++ [{ input := "cat Foo.TXT", output := .catNoFile "foo.txt" }]
    ∧ renderText (Output.catNoFile "foo.txt") = "cat: foo.txt: No such file or directory"
    ∧ renderText (Output.catNoFile "foo.txt") ≠ "cat: Foo.TXT: No such file or directory" := by
  decide

/-- C7 amended: whenever the cached project list is empty, `projects` emits the
loading placeholder rather than an error.  The cache is empty while the mount-time
fetch has not yet settled, and stays empty if the fetch resolves with an empty list;
a *failed* fetch is different — its `catch` handler installs the two mock projects,
leaving the cache non-empty.  With a non-empty cache of K items (a fetch resolved
with K ≥ 1 items), `projects` lists exactly those K items' titles. -/
theorem projects_behavior (input : String) (st : TermState)
    (h : (tokens input).headD "" = "projects") :
    (st.projects = [] →
       (executeCommand input st).1.commands
           = st.commands ++ [{ input := input, output := .projectsLoading }]
       ∧ renderText Output.projectsLoading = "Loading projects from database...")
    ∧ (st.projects ≠ [] →
       (executeCommand input st).1.commands
           = st.commands ++ [{ input := input, output := .projectsList st.projects }]
       ∧ titlesOf (Output.projectsList st.projects) = st.projects.map Project.title) := by
  constructor
  · intro hp
    have hd : dispatch "projects" (tokens input).tail st.projects
        = .normal .projectsLoading noFx := by
      simp [dispatch, hp]
    rw [executeCommand_eq, h, hd]
    simp [renderText, titlesOf]
  · intro hp
    have hl : st.projects.length > 0 := List.length_pos.2 hp
    have hd : dispatch "projects" (tokens input).tail st.projects
        = .normal (.projectsList st.projects) noFx := by
      simp [dispatch, hl]
    rw [executeCommand_eq, h, hd]
    simp [renderText, titlesOf]

/-- Witness for C7: with the empty mount cache, `projects` logs the loading
placeholder; the same happens after the fetch *resolves* with an empty list (the
cache stays empty even though the fetch has settled); after the fetch resolves with
the two-element list, it logs exactly those projects. -/
theorem projects_behavior_witness :
    ((executeCommand "projects" initState).1.commands
        = initState.commands ++ [{ input := "projects", output := .projectsLoading }]
      ∧ renderText Output.projectsLoading = "Loading projects from database...")
    ∧ ((executeCommand "projects" (fetchResolve [] initState)).1.commands
        = (fetchResolve [] initState).commands
            ++ [{ input := "projects", output := .projectsLoading }]
      ∧ renderText Output.projectsLoading = "Loading projects from database...")
    ∧ ((executeCommand "projects" (fetchResolve (mockProjects "t") initState)).1.commands
        = (fetchResolve (mockProjects "t") initState).commands
            ++ [{ input := "projects",
                  output := .projectsList (fetchResolve (mockProjects "t") initState).projects }]
      ∧ titlesOf (Output.projectsList (fetchResolve (mockProjects "t") initState).projects)
          = (fetchResolve (mockProjects "t") initState).projects.map Project.title) :=
  ⟨(projects_behavior "projects" initState (by decide)).1 (by decide),
   (projects_behavior "projects" (fetchResolve [] initState) (by decide)).1 (by decide),
   (projects_behavior "projects" (fetchResolve (mockProjects "t") initState) (by decide)).2
     (by decide)⟩

/-- C7 counterexample: when the mount-time fetch fails, the `catch` handler installs
the two mock projects, so the cache is *not* empty and `projects` logs the mock
listing — not the loading placeholder — refuting "empty because it failed". -/
theorem projects_counterexample :
    (fetchReject "2025-01-01T00:00:00.000Z" initState).projects ≠ []
    ∧ (executeCommand "projects"
          (fetchReject "2025-01-01T00:00:00.000Z" initState)).1.commands.map Entry.output
        = [Output.welcome, Output.projectsList (mockProjects "2025-01-01T00:00:00.000Z")]
    ∧ Output.projectsList (mockProjects "2025-01-01T00:00:00.000Z") ≠ Output.projectsLoading
    ∧ titlesOf (Output.projectsList (mockProjects "2025-01-01T00:00:00.000Z"))
        = ["Portfolio Terminal", "Full Stack Dashboard"] := by
  decide


/-- C8 amended: `exit` logs the transition message and schedules exactly one deferred
theme-side-channel invocation — `default` after 1000 ms — with no immediate call; no
other command schedules any deferred effect.  The cancellation half of the claim fails:
see the counterexample. -/
theorem exit_schedule (input : String) (st : TermState) :
    ((tokens input).headD "" = "exit" →
       (executeCommand input st).2.scheduled = [(1000, "default")]
       ∧ (executeCommand input st).2.themeCalls = []
       ∧ (executeCommand input st).1.commands
           = st.commands ++ [{ input := input, output := .exitMessage }])
    ∧ ((tokens input).headD "" ≠ "exit" → (executeCommand input st).2.scheduled = []) := by
  constructor
  · intro h
    have hd : dispatch "exit" (tokens input).tail st.projects
        = .normal .exitMessage ⟨[], [(1000, "default")]⟩ := rfl
    rw [executeCommand_eq, h, hd]
    simp
  · intro h
    by_cases hc : (tokens input).headD "" = "clear"
    · rw [executeCommand_eq, hc]
      rfl
    · by_cases h0 : (tokens input).headD "" = ""
      · rw [executeCommand_eq, h0]
        rfl
      · obtain ⟨out, fx, hd, hs⟩ := dispatch_shape _ (tokens input).tail st.projects hc h0
        rw [executeCommand_eq, hd]
        exact hs h

/-- Witness for C8 at the concrete lines `exit` and `help`. -/
theorem exit_schedule_witness :
    (executeCommand "exit" initState).2.scheduled = [(1000, "default")]
    ∧ (executeCommand "exit" initState).2.themeCalls = []
    ∧ (executeCommand "help" initState).2.scheduled = [] :=
  ⟨((exit_schedule "exit" initState).1 (by decide)).1,
   ((exit_schedule "exit" initState).1 (by decide)).2.1,
   (exit_schedule "help" initState).2 (by decide)⟩

/-- C8 counterexample: executing `exit` and then tearing the component down before the
1000 ms delay elapses leaves the scheduled callback pending — the source registers no
cleanup and discards the timer handle, so the callback is *not* cancelled and can act
on the unmounted session. -/
theorem exit_cancellation_counterexample :
    (teardown (execW "exit" initWorld)).mounted = false
    ∧ (teardown (execW "exit" initWorld)).pendingTimers = [(1000, "default")] := by
  decide

/-- C10: the interpreter tokenizes the lowercased line, so tokenization — and with it
the dispatch, the produced outputs and all side effects — is unchanged by lowercasing
the input; meanwhile the Session Log entry and the Input History store the raw line
exactly as typed, for every non-`clear`, non-blank line (the command-not-found branch
included). -/
theorem lowercase_dispatch_raw_storage (i1 i2 : String) (st : TermState) :
    tokens (jsLower i1) = tokens i1
    ∧ (tokens i1 = tokens i2 →
        (executeCommand i1 st).2 = (executeCommand i2 st).2
        ∧ (executeCommand i1 st).1.commands.map Entry.output
            = (executeCommand i2 st).1.commands.map Entry.output)
    ∧ ((tokens i1).headD "" ≠ "clear" → (tokens i1).headD "" ≠ "" →
        (executeCommand i1 st).1.commands.map Entry.input
            = st.commands.map Entry.input ++ [i1]
        ∧ (executeCommand i1 st).1.commandHistory = st.commandHistory ++ [i1]) := by
  refine ⟨tokens_jsLower i1, execute_tokens_congr i1 i2 st, ?_⟩
  intro hc h0
  obtain ⟨out, fx, he, _⟩ := execute_appends i1 st hc h0
  rw [he]
  simp

/-- Witness for C10: `CAT README.MD` behaves exactly like `cat readme.md`; the raw
line `FooBar` is stored as typed though dispatched lowercased; `theme MAGIC` reaches
the side channel as `magic`. -/
theorem lowercase_dispatch_raw_storage_witness :
    ((executeCommand "CAT README.MD" initState).2 = (executeCommand "cat readme.md" initState).2
      ∧ (executeCommand "CAT README.MD" initState).1.commands.map Entry.output
          = (executeCommand "cat readme.md" initState).1.commands.map Entry.output)
    ∧ ((executeCommand "FooBar" initState).1.commands.map Entry.input
          = initState.commands.map Entry.input ++ ["FooBar"]
      ∧ (executeCommand "FooBar" initState).1.commandHistory
          = initState.commandHistory ++ ["FooBar"])
    ∧ (executeCommand "theme MAGIC" initState).2.themeCalls = ["magic"] :=
  ⟨(lowercase_dispatch_raw_storage "CAT README.MD" "cat readme.md" initState).2.1 (by decide),
   (lowercase_dispatch_raw_storage "FooBar" "FooBar" initState).2.2 (by decide) (by decide),
   by decide⟩


theorem cursorInv_applyOp (st : TermState) (op : Op) (h : cursorInv st) :
    cursorInv (applyOp st op) := by
  obtain ⟨h1, h2⟩ := h
  cases op with
  | up =>
    simp only [applyOp, recallPrevious]
    split
    · rename_i hlt
      show -1 ≤ st.historyIndex + 1
        ∧ st.historyIndex + 1 ≤ (st.commandHistory.length : Int) - 1
      omega
    · exact ⟨h1, h2⟩
  | down =>
    simp only [applyOp, recallNext]
    split
    · rename_i hgt
      show -1 ≤ st.historyIndex - 1
        ∧ st.historyIndex - 1 ≤ (st.commandHistory.length : Int) - 1
      omega
    · split
      · show -1 ≤ (-1 : Int) ∧ (-1 : Int) ≤ (st.commandHistory.length : Int) - 1
        omega
      · exact ⟨h1, h2⟩
  | submit line =>
    simp only [applyOp, submitLine, handleSubmit]
    split
    · rw [executeCommand_eq]
      rcases dispatch ((tokens line).headD "") (tokens line).tail
          ({ st with currentInput := line } : TermState).projects with _ | _ | ⟨o, fx⟩
      · exact ⟨h1, h2⟩
      · exact ⟨h1, h2⟩
      · show -1 ≤ (-1 : Int)
          ∧ (-1 : Int) ≤ ((st.commandHistory ++ [line]).length : Int) - 1
        omega
    · exact ⟨h1, h2⟩

/-- C4: starting from the mount state, after any interleaving of ArrowUp recalls,
ArrowDown recalls and command submissions, the recall cursor stays within
`[-1, length(Input History) - 1]`; and ArrowDown (`recallNext`) with the cursor at
`-1` changes nothing — neither the cursor nor the input buffer. -/
theorem recall_cursor_invariant :
    (∀ ops : List Op, cursorInv (applyOps initState ops))
    ∧ ∀ st : TermState, st.historyIndex = -1 → recallNext st = st := by
  constructor
  · intro ops
    have main : ∀ st, cursorInv st → cursorInv (applyOps st ops) := by
      unfold applyOps
      induction ops with
      | nil => intro st h; exact h
      | cons op rest ih => intro st h; exact ih _ (cursorInv_applyOp st op h)
    exact main initState (by decide)
  · intro st h
    simp [recallNext, h]

/-- Witness for C4 at a concrete interaction sequence and the concrete mount state. -/
theorem recall_cursor_invariant_witness :
    cursorInv (applyOps initState [.submit "help", .submit "whoami", .up, .up, .down, .down, .down])
    ∧ recallNext initState = initState :=
  ⟨recall_cursor_invariant.1 _, recall_cursor_invariant.2 initState (by decide)⟩


theorem submit_good (l : String) (st : TermState) (h1 : jsTrim l ≠ "")
    (hc : (tokens l).headD "" ≠ "clear") (h0 : (tokens l).headD "" ≠ "") :
    ∃ out fx, submitLine l st =
      ({ commands := st.commands ++ [{ input := l, output := out }],
         commandHistory := st.commandHistory ++ [l],
         historyIndex := -1,
         currentInput := "",
         projects := st.projects }, fx) := by
  obtain ⟨out, fx, he, -⟩ := execute_appends l { st with currentInput := l } hc h0
  refine ⟨out, fx, ?_⟩
  simp only [submitLine, handleSubmit]
  split
  · show ({ (executeCommand l { st with currentInput := l }).1 with currentInput := "" },
        (executeCommand l { st with currentInput := l }).2) = _
    rw [he]
  · rename_i hcond
    simp at hcond
    exact absurd hcond h1

theorem submitAll_good (lines : List String) :
    ∀ st : TermState,
      (∀ l ∈ lines, jsTrim l ≠ "" ∧ (tokens l).headD "" ≠ "clear" ∧ (tokens l).headD "" ≠ "") →
      (submitAll lines st).commandHistory = st.commandHistory ++ lines
      ∧ (lines ≠ [] → (submitAll lines st).historyIndex = -1) := by
  induction lines with
  | nil =>
    intro st _
    exact ⟨by simp [submitAll], fun hcon => absurd rfl hcon⟩
  | cons l ls ih =>
    intro st h
    have hl := h l (List.mem_cons_self l ls)
    obtain ⟨out, fx, he⟩ := submit_good l st hl.1 hl.2.1 hl.2.2
    have hstep : submitAll (l :: ls) st = submitAll ls (submitLine l st).1 := rfl
    have hmid1 : (submitLine l st).1.commandHistory = st.commandHistory ++ [l] := by rw [he]
    have hmid2 : (submitLine l st).1.historyIndex = -1 := by rw [he]
    rw [hstep]
    have hh := ih (submitLine l st).1 (fun x hx => h x (List.mem_cons_of_mem _ hx))
    constructor
    · rw [hh.1, hmid1]
      simp
    · intro _
      by_cases hls : ls = []
      · subst hls
        simpa [submitAll] using hmid2
      · exact hh.2 hls

theorem recallPrevious_of_idx (st : TermState) (k : Nat)
    (hidx : st.historyIndex = (k : Int) - 1) (hk : k < st.commandHistory.length) :
    recallPrevious st =
      { st with historyIndex := (k : Int),
                currentInput := histAt st.commandHistory
                  ((st.commandHistory.length : Int) - 1 - (k : Int)) } := by
  have hcond : st.historyIndex < (st.commandHistory.length : Int) - 1 := by omega
  have hplus : st.historyIndex + 1 = (k : Int) := by omega
  unfold recallPrevious
  rw [if_pos hcond]
  simp only [hplus]

theorem iterate_up_proj (st : TermState) (h0 : st.historyIndex = -1) :
    ∀ k : Nat, k ≤ st.commandHistory.length →
      (iterate recallPrevious k st).historyIndex = (k : Int) - 1
      ∧ (iterate recallPrevious k st).commandHistory = st.commandHistory
      ∧ (0 < k → (iterate recallPrevious k st).currentInput
          = histAt st.commandHistory ((st.commandHistory.length : Int) - (k : Int))) := by
  intro k
  induction k with
  | zero =>
    intro _
    refine ⟨?_, rfl, fun hcon => absurd hcon (by omega)⟩
    show st.historyIndex = (0 : Int) - 1
    rw [h0]
    norm_num
  | succ k ih =>
    intro hk
    obtain ⟨ih1, ih2, ih3⟩ := ih (Nat.le_of_succ_le hk)
    have hr := recallPrevious_of_idx (iterate recallPrevious k st) k ih1
      (by rw [ih2]; omega)
    have hit : iterate recallPrevious (k + 1) st
        = recallPrevious (iterate recallPrevious k st) := rfl
    rw [hit, hr]
    refine ⟨?_, ?_, fun _ => ?_⟩
    · show (k : Int) = ((k + 1 : Nat) : Int) - 1
      push_cast
      omega
    · exact ih2
    · show histAt (iterate recallPrevious k st).commandHistory
          (((iterate recallPrevious k st).commandHistory.length : Int) - 1 - (k : Int))
        = histAt st.commandHistory ((st.commandHistory.length : Int) - ((k + 1 : Nat) : Int))
      rw [ih2]
      congr 1
      push_cast
      omega

theorem staged_eq (st : TermState) (h0 : st.historyIndex = -1) :
    stagedInputs st st.commandHistory.length = st.commandHistory.reverse := by
  unfold stagedInputs
  apply List.ext_getElem
  · simp
  · intro i hi1 hi2
    simp only [List.getElem_map, List.getElem_range]
    have hlen : i < st.commandHistory.length := by simpa using hi2
    have h4 := (iterate_up_proj st h0 (i + 1) (by omega)).2.2 (Nat.succ_pos i)
    rw [h4]
    unfold histAt
    rw [if_pos (by omega)]
    have htn : ((st.commandHistory.length : Int) - ((i + 1 : Nat) : Int)).toNat
        = st.commandHistory.length - 1 - i := by omega
    rw [htn, List.getElem_reverse]
    rw [List.getD_eq_getElem?_getD, List.getElem?_eq_getElem (by omega)]
    rfl

/-- C5 amended: submitting N distinct lines — each non-blank and with leading token
other than `clear` (blank lines are swallowed and `clear` returns before the history
append) — populates the Input History with exactly those N raw strings in submission
order, and N consecutive ArrowUp recalls then stage exactly those N strings into the
input buffer in reverse (most-recent-first) order. -/
theorem history_roundtrip (lines : List String)
    (hgood : ∀ l ∈ lines,
      jsTrim l ≠ "" ∧ (tokens l).headD "" ≠ "clear" ∧ (tokens l).headD "" ≠ "")
    (hnd : lines.Nodup) :
    (submitAll lines initState).commandHistory = lines
    ∧ stagedInputs (submitAll lines initState) lines.length = lines.reverse := by
  have h := submitAll_good lines initState hgood
  have hhist : (submitAll lines initState).commandHistory = lines := by
    rw [h.1]
    rfl
  refine ⟨hhist, ?_⟩
  by_cases hnil : lines = []
  · subst hnil
    rfl
  · have hst := staged_eq (submitAll lines initState) (h.2 hnil)
    rw [hhist] at hst
    exact hst

/-- Witness for C5 at the concrete distinct lines `help` and `whoami`. -/
theorem history_roundtrip_witness :
    (submitAll ["help", "whoami"] initState).commandHistory = ["help", "whoami"]
    ∧ stagedInputs (submitAll ["help", "whoami"] initState)
        (["help", "whoami"] : List String).length
      = (["help", "whoami"] : List String).reverse :=
  history_roundtrip ["help", "whoami"] (by decide) (by decide)

/-- C5 counterexample: `"clear"` is a distinct, non-empty command line, yet submitting
it leaves the Input History empty — the `clear` handler returns before the history
append, so the claimed round-trip fails. -/
theorem history_roundtrip_counterexample :
    ("clear" : String) ≠ ""
    ∧ (["clear"] : List String).Nodup
    ∧ (submitAll ["clear"] initState).commandHistory ≠ ["clear"] := by
  decide

end Terminal
